import Mathlib

/-!
Shallow embedding of the structured-logging facility of the beto
repository (Go package logger, file src/pkg/config/config.go).
Machine integers of the source are modelled as Nat; the output sink is
modelled by returning the written bytes (an emission call returns
none when nothing is written, and some line when one line is written);
the wall clock and the runtime stack walk are modelled as explicit
inputs (the timestamp string, and the frame that runtime.Caller would
return at depth 3 + callerSkip).
-/

namespace Beto

/-- LogLevel: the Go type is an int with five iota constants
DEBUG..FATAL; parseLogLevel is total onto these five, so the embedding
uses a five-valued type, with toNat giving the iota numeral used by
the int comparison in Logger.log. -/
inductive LogLevel where
  | DEBUG
  | INFO
  | WARN
  | ERROR
  | FATAL
deriving DecidableEq, Repr

/-- The iota value of each level constant (DEBUG = 0 .. FATAL = 4). -/
def LogLevel.toNat : LogLevel → Nat
  | .DEBUG => 0
  | .INFO => 1
  | .WARN => 2
  | .ERROR => 3
  | .FATAL => 4

/-- func (l LogLevel) String() string; the default arm UNKNOWN of the
Go switch is unreachable for the five-valued type. -/
def LogLevel.String : LogLevel → String
  | .DEBUG => "DEBUG"
  | .INFO => "INFO"
  | .WARN => "WARN"
  | .ERROR => "ERROR"
  | .FATAL => "FATAL"

/-- LogFormat: the Go type is an int with constants TextFormat = 0 and
JSONFormat = 1; parseLogFormat is total onto these two, so the
embedding uses a two-valued type. -/
inductive LogFormat where
  | TextFormat
  | JSONFormat
deriving DecidableEq, Repr

/-- A field value (Go interface value stored in map[string]interface).
vStr and vNat cover the values the package itself attaches (strings
and the status-code int); vOpaque models a caller-supplied value that
encoding/json cannot serialize (a channel or function value), which is
what makes json.Marshal of a LogEntry fail. -/
inductive Value where
  | vStr (s : String)
  | vNat (n : Nat)
  | vOpaque
deriving DecidableEq, Repr

/-- The text fmt.Sprintf produces for a value under the v verb. -/
def Value.render : Value → String
  | .vStr s => s
  | .vNat n => toString n
  | .vOpaque => "(non-serializable)"

/-- The fields mapping map[string]interface.  A Go map has unique
keys; the embedding keeps an association list with unique keys, and
map assignment replaces the value of an existing key in place (map
iteration order is unspecified in Go, so the list order is one valid
determinization of it). -/
abbrev Fields := List (String × Value)

/-- Go map assignment m[k] = v: replace the value at an existing key,
otherwise add the key. -/
def insertField : Fields → String → Value → Fields
  | [], k, v => [(k, v)]
  | (k₀, v₀) :: rest, k, v =>
      if k₀ = k then (k, v) :: rest else (k₀, v₀) :: insertField rest k v

/-- Go map read m[k] (with presence bit). -/
def lookupField : Fields → String → Option Value
  | [], _ => none
  | (k₀, v₀) :: rest, k => if k₀ = k then some v₀ else lookupField rest k

/-- ASCII upper-casing of one character, as strings.ToUpper does for
ASCII input. -/
def upChar (c : Char) : Char :=
  if 'a' ≤ c ∧ c ≤ 'z' then Char.ofNat (c.toNat - 32) else c

/-- ASCII lower-casing of one character, as strings.ToLower does for
ASCII input. -/
def downChar (c : Char) : Char :=
  if 'A' ≤ c ∧ c ≤ 'Z' then Char.ofNat (c.toNat + 32) else c

/-- strings.ToUpper modelled for ASCII input. -/
def toUpperStr (s : String) : String := String.mk (s.data.map upChar)

/-- strings.ToLower modelled for ASCII input. -/
def toLowerStr (s : String) : String := String.mk (s.data.map downChar)

/-- func parseLogLevel(level string) LogLevel. -/
def parseLogLevel (level : String) : LogLevel :=
  match toUpperStr level with
  | "DEBUG" => .DEBUG
  | "INFO" => .INFO
  | "WARN" => .WARN
  | "WARNING" => .WARN
  | "ERROR" => .ERROR
  | "FATAL" => .FATAL
  | _ => .INFO

/-- func parseLogFormat(format string) LogFormat. -/
def parseLogFormat (format : String) : LogFormat :=
  match toLowerStr format with
  | "json" => .JSONFormat
  | "text" => .TextFormat
  | "plain" => .TextFormat
  | _ => .JSONFormat

/-- strings.Join modelled on a list of parts. -/
def joinStrings (sep : String) : List String → String
  | [] => ""
  | [x] => x
  | x :: y :: xs => x ++ sep ++ joinStrings sep (y :: xs)

/-- One lowercase hexadecimal digit, as encoding/json writes control
characters. -/
def hexDigit (n : Nat) : Char :=
  if n < 10 then Char.ofNat (48 + n) else Char.ofNat (87 + n)

/-- The escaping encoding/json applies to one character of a string
(with the default HTML escaping of angle brackets and ampersand). -/
def jsonEscapeChar (c : Char) : String :=
  if c = '"' then "\\\""
  else if c = '\\' then "\\\\"
  else if c = '\n' then "\\n"
  else if c = '\r' then "\\r"
  else if c = '\t' then "\\t"
  else if c = '<' then "\\u003c"
  else if c = '>' then "\\u003e"
  else if c = '&' then "\\u0026"
  else if c.toNat < 32 then
    "\\u00" ++ String.mk [hexDigit (c.toNat / 16), hexDigit (c.toNat % 16)]
  else if c.toNat = 8232 then "\\u2028"
  else if c.toNat = 8233 then "\\u2029"
  else String.mk [c]

/-- encoding/json string-body escaping over a character list. -/
def jsonEscapeList : List Char → String
  | [] => ""
  | c :: cs => jsonEscapeChar c ++ jsonEscapeList cs

/-- A JSON string literal for s, as encoding/json renders it. -/
def jsonQuote (s : String) : String := "\"" ++ jsonEscapeList s.data ++ "\""

/-- True of characters that encoding/json copies into a JSON string
body unchanged. -/
def plainChar (c : Char) : Bool :=
  !(c = '"' || c = '\\' || c = '<' || c = '>' || c = '&' ||
    c.toNat < 32 || c.toNat = 8232 || c.toNat = 8233)

/-- encoding/json serialization of one interface value; vOpaque is a
value json.Marshal rejects with an UnsupportedTypeError. -/
def jsonEncodeValue : Value → Option String
  | .vStr s => some (jsonQuote s)
  | .vNat n => some (toString n)
  | .vOpaque => none

/-- Ordered insertion by key (encoding/json emits map keys sorted). -/
def insertSorted (kv : String × Value) : Fields → Fields
  | [] => [kv]
  | kv₀ :: rest =>
      if kv.1 ≤ kv₀.1 then kv :: kv₀ :: rest else kv₀ :: insertSorted kv rest

/-- Key-sorted view of a fields map, matching the key order
encoding/json uses when serializing a Go map. -/
def sortFields (fs : Fields) : Fields := fs.foldr insertSorted []

/-- encoding/json serialization of the fields map: every entry is
serialized in sorted key order, and the whole map fails to serialize
when any single value does. -/
def jsonFields (fs : Fields) : Option String :=
  match (sortFields fs).mapM
      (fun kv => (jsonEncodeValue kv.2).map (fun j => jsonQuote kv.1 ++ ":" ++ j)) with
  | some parts => some ("\x7b" ++ joinStrings "," parts ++ "\x7d")
  | none => none

/-- type LogEntry struct, with the json tags of the source: caller and
fields carry omitempty, so an empty caller string and an empty fields
map are left out of the serialization. -/
structure LogEntry where
  Timestamp : String
  Level : String
  Message : String
  Caller : String
  Fields : Beto.Fields
deriving DecidableEq, Repr

/-- json.Marshal of a LogEntry: the struct fields in declaration
order, honoring the two omitempty tags; fails exactly when the fields
map contains a non-serializable value. -/
def jsonMarshal (e : LogEntry) : Option String :=
  let base := "\x7b\"timestamp\":" ++ jsonQuote e.Timestamp ++
    ",\"level\":" ++ jsonQuote e.Level ++
    ",\"message\":" ++ jsonQuote e.Message ++
    (if e.Caller ≠ "" then ",\"caller\":" ++ jsonQuote e.Caller else "")
  match e.Fields with
  | [] => some (base ++ "\x7d")
  | _ :: _ =>
    match jsonFields e.Fields with
    | some fj => some (base ++ ",\"fields\":" ++ fj ++ "\x7d")
    | none => none

/-- The TextFormat arm of Logger.formatEntry: the parts list is built
exactly as in the source and joined by single spaces. -/
def textFormatEntry (e : LogEntry) : String :=
  let parts := [e.Timestamp, "[" ++ e.Level ++ "]"]
  let parts := parts ++ (if e.Caller ≠ "" then ["(" ++ e.Caller ++ ")"] else [])
  let parts := parts ++ [e.Message]
  let parts := parts ++
    (if e.Fields.length > 0 then
      ["\x7b" ++ joinStrings ", " (e.Fields.map (fun kv => kv.1 ++ "=" ++ kv.2.render)) ++ "\x7d"]
     else [])
  joinStrings " " parts

/-- type Logger struct.  The io.Writer sink is represented by an
abstract identity (clone shares the sink pointer, so derived loggers
carry the same identity); emission below returns the written bytes
instead of performing the write. -/
structure Logger where
  level : LogLevel
  format : LogFormat
  output : Nat
  fields : Beto.Fields
  callerSkip : Int
deriving DecidableEq, Repr

/-- func (l *Logger) clone() *Logger: a fresh Logger value whose
fields map is an entry-by-entry copy of the source map. -/
def Logger.clone (l : Logger) : Logger :=
  { level := l.level
    format := l.format
    output := l.output
    fields := l.fields.map (fun kv => kv)
    callerSkip := l.callerSkip }

/-- func (l *Logger) WithField(key string, value interface) *Logger. -/
def Logger.WithField (l : Logger) (key : String) (value : Value) : Logger :=
  let newLogger := l.clone
  { newLogger with fields := insertField newLogger.fields key value }

/-- func (l *Logger) WithFields(fields map[string]interface) *Logger;
the argument map is modelled as a list of its entries in some
iteration order. -/
def Logger.WithFields (l : Logger) (fields : Beto.Fields) : Logger :=
  let newLogger := l.clone
  { newLogger with
    fields := fields.foldl (fun m kv => insertField m kv.1 kv.2) newLogger.fields }

/-- func (l *Logger) WithContext(ctx context.Context) *Logger; the
context carrier is modelled by its Value lookup function. -/
def Logger.WithContext (l : Logger) (ctx : String → Option Value) : Logger :=
  let newLogger := l.clone
  let newLogger :=
    match ctx "request_id" with
    | some requestID =>
        { newLogger with fields := insertField newLogger.fields "request_id" requestID }
    | none => newLogger
  match ctx "user_id" with
  | some userID =>
      { newLogger with fields := insertField newLogger.fields "user_id" userID }
  | none => newLogger

/-- fmt.Sprintf restricted to the verbs this package uses (s, v, d):
each verb consumes one argument and renders it. -/
def sprintfAux : List Char → List Value → List Char
  | [], _ => []
  | '%' :: 'v' :: rest, a :: as => (Value.render a).data ++ sprintfAux rest as
  | '%' :: 's' :: rest, a :: as => (Value.render a).data ++ sprintfAux rest as
  | '%' :: 'd' :: rest, a :: as => (Value.render a).data ++ sprintfAux rest as
  | c :: rest, as => c :: sprintfAux rest as

/-- fmt.Sprintf(msg, args...) for the verbs used in this package. -/
def sprintf (fmt : String) (args : List Value) : String :=
  String.mk (sprintfAux fmt.data args)

/-- strings.Split(s, "/") modelled on the character list. -/
def splitSlash : List Char → List (List Char)
  | [] => [[]]
  | c :: cs =>
    let r := splitSlash cs
    if c = '/' then [] :: r
    else
      match r with
      | [] => [[c]]
      | h :: t => (c :: h) :: t

/-- func (l *Logger) getCaller() string.  The runtime stack walk is an
explicit input: frame is what runtime.Caller(3 + l.callerSkip) yields
(none when the stack has no frame at that depth). -/
def Logger.getCaller (l : Logger) (frame : Option (String × Nat)) : String :=
  match frame with
  | none => ""
  | some (file, line) =>
    let parts := (splitSlash file.data).map String.mk
    let file := if parts.length > 0 then parts.getLastD file else file
    file ++ ":" ++ toString line

/-- The LogEntry that Logger.log builds for one emission: timestamp,
level name, resolved message, the logger fields map, and the caller
exactly when level is at least ERROR or the threshold is DEBUG and
the stack walk yields a nonempty location. -/
def Logger.mkEntry (l : Logger) (level : LogLevel) (message now : String)
    (frame : Option (String × Nat)) : LogEntry :=
  let entry : LogEntry :=
    { Timestamp := now
      Level := level.String
      Message := message
      Caller := ""
      Fields := l.fields }
  if (LogLevel.ERROR.toNat ≤ level.toNat ∨ l.level = .DEBUG) ∧ l.getCaller frame ≠ "" then
    { entry with Caller := l.getCaller frame }
  else entry

/-- func (l *Logger) formatEntry(entry LogEntry) string: JSON first
with fallthrough to the text arm when json.Marshal fails. -/
def Logger.formatEntry (l : Logger) (entry : LogEntry) : String :=
  match l.format with
  | .JSONFormat =>
    match jsonMarshal entry with
    | some data => data
    | none => textFormatEntry entry
  | .TextFormat => textFormatEntry entry

/-- func (l *Logger) log(level LogLevel, msg string, args ...):
returns none when the record is dropped by the threshold check, and
some of the bytes written to the sink otherwise. -/
def Logger.log (l : Logger) (level : LogLevel) (msg : String) (args : List Value)
    (now : String) (frame : Option (String × Nat)) : Option String :=
  if level.toNat < l.level.toNat then none
  else
    let message := if args.length > 0 then sprintf msg args else msg
    some (l.formatEntry (l.mkEntry level message now frame) ++ "\n")

/-- func (l *Logger) Debug. -/
def Logger.Debug (l : Logger) (msg : String) (args : List Value) (now : String)
    (frame : Option (String × Nat)) : Option String :=
  l.log .DEBUG msg args now frame

/-- func (l *Logger) Info. -/
def Logger.Info (l : Logger) (msg : String) (args : List Value) (now : String)
    (frame : Option (String × Nat)) : Option String :=
  l.log .INFO msg args now frame

/-- func (l *Logger) Warn. -/
def Logger.Warn (l : Logger) (msg : String) (args : List Value) (now : String)
    (frame : Option (String × Nat)) : Option String :=
  l.log .WARN msg args now frame

/-- func (l *Logger) Error. -/
def Logger.Error (l : Logger) (msg : String) (args : List Value) (now : String)
    (frame : Option (String × Nat)) : Option String :=
  l.log .ERROR msg args now frame

/-- func (l *Logger) Fatal: the FATAL emission through the same log
path, followed by os.Exit(1); the pair carries the emission result
and the exit status the process terminates with. -/
def Logger.Fatal (l : Logger) (msg : String) (args : List Value) (now : String)
    (frame : Option (String × Nat)) : Option String × Nat :=
  (l.log .FATAL msg args now frame, 1)

/-- One observable action a wrapped handler performs on the response
writer. -/
inductive HAction where
  | writeHeader (statusCode : Nat)
  | write (p : String)
deriving DecidableEq, Repr

/-- type responseWriterWrapper struct: the captured status code. -/
structure responseWriterWrapper where
  statusCode : Nat
deriving DecidableEq, Repr

/-- func (w *responseWriterWrapper) WriteHeader(statusCode int):
stores the given code unconditionally on every call. -/
def responseWriterWrapper.WriteHeader (w : responseWriterWrapper)
    (statusCode : Nat) : responseWriterWrapper :=
  { w with statusCode := statusCode }

/-- Running a handler against the wrapper: WriteHeader calls go
through the wrapper, body writes leave the captured code unchanged. -/
def serveHTTP (w : responseWriterWrapper) (handler : List HAction) :
    responseWriterWrapper :=
  handler.foldl
    (fun w a =>
      match a with
      | .writeHeader c => w.WriteHeader c
      | .write _ => w)
    w

/-- The request data the middleware reads. -/
structure Request where
  method : String
  url : String
  remoteAddr : String
  userAgent : String
deriving DecidableEq, Repr

/-- The derived logger the middleware emits through, with the six
request fields of the source. -/
def Logger.httpRequestLogger (l : Logger) (r : Request) (statusCode : Nat)
    (duration : String) : Logger :=
  l.WithFields
    [("method", .vStr r.method), ("url", .vStr r.url),
     ("remote_addr", .vStr r.remoteAddr), ("user_agent", .vStr r.userAgent),
     ("status_code", .vNat statusCode), ("duration", .vStr duration)]

/-- func (l *Logger) HTTPLogMiddleware: wraps the response writer with
statusCode 200, runs the handler, then emits one INFO record through
the derived logger; duration and now stand for the formatted elapsed
time and the emission timestamp. -/
def Logger.HTTPLogMiddleware (l : Logger) (handler : List HAction) (r : Request)
    (duration now : String) (frame : Option (String × Nat)) : Option String :=
  let wrapped := serveHTTP { statusCode := 200 } handler
  (l.httpRequestLogger r wrapped.statusCode duration).Info "HTTP request" [] now frame

/-- type loggerWriter struct. -/
structure loggerWriter where
  logger : Logger

/-- func (w *loggerWriter) Write(p []byte) (int, error): forwards the
bytes as an INFO message and returns (len(p), nil).  The first
component is the sink observation of the forwarded emission; the
second is the Go return pair, with error modelled as Option String. -/
def loggerWriter.Write (w : loggerWriter) (p : String) (now : String)
    (frame : Option (String × Nat)) : Option String × Nat × Option String :=
  (w.logger.Info "%s" [.vStr p] now frame, p.utf8ByteSize, none)

/-- needle occurs as a contiguous run of hay (executable check). -/
def isPrefixChars : List Char → List Char → Bool
  | [], _ => true
  | _ :: _, [] => false
  | c :: cs, d :: ds => c = d && isPrefixChars cs ds

/-- needle occurs contiguously somewhere in hay (executable check). -/
def listContainsChars (hay needle : List Char) : Bool :=
  (List.range (hay.length + 1)).any fun i => isPrefixChars needle (hay.drop i)

/-- The needle string occurs as a substring of the hay string. -/
def strContains (hay needle : String) : Bool :=
  listContainsChars hay.data needle.data

/-- The text rendering as the spec paragraph describes it, written as
an explicit space-separated concatenation (this definition follows the
spec wording and is compared against textFormatEntry, which is
translated from the source). -/
def specTextRender (e : LogEntry) : String :=
  e.Timestamp ++ " " ++ "[" ++ e.Level ++ "]" ++
  (if e.Caller ≠ "" then " " ++ "(" ++ e.Caller ++ ")" else "") ++
  " " ++ e.Message ++
  (if e.Fields.length > 0 then
    " " ++ "\x7b" ++
      joinStrings ", " (e.Fields.map (fun kv => kv.1 ++ "=" ++ kv.2.render)) ++ "\x7d"
   else "")

/-- The status code the claim sentence describes: the FIRST explicit
status-code write of the handler, 200 when there is none (this
definition follows the claim wording and is compared against
serveHTTP, which is translated from the source). -/
def firstWrittenStatus (handler : List HAction) : Nat :=
  match handler.filterMap
      (fun a => match a with | .writeHeader c => some c | .write _ => none) with
  | [] => 200
  | c :: _ => c

/-- The status code the wrapper actually keeps: the LAST explicit
status-code write of the handler, 200 when there is none. -/
def lastWrittenStatus (handler : List HAction) : Nat :=
  (handler.filterMap
    (fun a => match a with | .writeHeader c => some c | .write _ => none)).getLastD 200

section Helpers

theorem data_append (s t : String) : (s ++ t).data = s.data ++ t.data := by
  cases s; cases t; rfl

theorem append_assoc' (s t u : String) : s ++ t ++ u = s ++ (t ++ u) := by
  cases s; cases t; cases u
  show String.mk _ = String.mk _
  simp [String.append]

theorem mk_append_mk (a b : List Char) :
    String.mk a ++ String.mk b = String.mk (a ++ b) := rfl

theorem mk_data (s : String) : String.mk s.data = s := by
  cases s; rfl

theorem ne_empty_of_data_ne_nil {s : String} (h : s.data ≠ []) : s ≠ "" := by
  intro he
  exact h (congrArg String.data he)

theorem isPrefixChars_append_self (n t : List Char) :
    isPrefixChars n (n ++ t) = true := by
  induction n with
  | nil => rfl
  | cons c cs ih => simp [isPrefixChars, ih]

theorem strContains_of_decomp (p n q : String) :
    strContains (p ++ (n ++ q)) n = true := by
  unfold strContains listContainsChars
  rw [List.any_eq_true]
  refine ⟨p.data.length, ?_, ?_⟩
  · rw [List.mem_range, data_append, data_append, List.length_append, List.length_append]
    omega
  · rw [data_append, data_append, List.drop_left]
    exact isPrefixChars_append_self n.data q.data

theorem strContains_of_eq (hay p n q : String) (h : hay = p ++ (n ++ q)) :
    strContains hay n = true := by
  rw [h]; exact strContains_of_decomp p n q

theorem lookup_insertField_self (m : Fields) (k : String) (v : Value) :
    lookupField (insertField m k v) k = some v := by
  induction m with
  | nil => simp [insertField, lookupField]
  | cons kv rest ih =>
    by_cases h : kv.1 = k
    · simp [insertField, lookupField, h]
    · simp [insertField, lookupField, h, ih]

theorem lookup_insertField_ne (m : Fields) (k' k : String) (v : Value)
    (h : k' ≠ k) : lookupField (insertField m k' v) k = lookupField m k := by
  induction m with
  | nil => simp [insertField, lookupField, h]
  | cons kv rest ih =>
    by_cases h₀ : kv.1 = k'
    · simp [insertField, lookupField, h₀, h]
    · simp only [insertField, h₀, if_false, lookupField]
      by_cases h₁ : kv.1 = k <;> simp [h₁, ih]

theorem clone_eq (l : Logger) : l.clone = l := by
  cases l
  simp [Logger.clone]

theorem mkEntry_Fields (l : Logger) (level : LogLevel) (message now : String)
    (frame : Option (String × Nat)) :
    (l.mkEntry level message now frame).Fields = l.fields := by
  unfold Logger.mkEntry
  split <;> rfl

theorem getCaller_some_ne_empty (l : Logger) (file : String) (line : Nat) :
    l.getCaller (some (file, line)) ≠ "" := by
  unfold Logger.getCaller
  apply ne_empty_of_data_ne_nil
  rw [data_append, data_append]
  simp

theorem append_empty' (s : String) : s ++ "" = s := by
  cases s
  show String.mk _ = String.mk _
  simp [String.append]

theorem str_ext {s t : String} (h : s.data = t.data) : s = t := by
  cases s
  cases t
  cases h
  rfl

theorem jsonEscapeChar_plain {c : Char} (h : plainChar c = true) :
    jsonEscapeChar c = String.mk [c] := by
  simp only [plainChar, Bool.not_eq_true', Bool.or_eq_false_iff,
    decide_eq_false_iff_not] at h
  obtain ⟨⟨⟨⟨⟨⟨⟨h1, h2⟩, h3⟩, h4⟩, h5⟩, h6⟩, h7⟩, h8⟩ := h
  have hn : ¬ c = '\n' := fun hc => h6 (by rw [hc]; decide)
  have hr : ¬ c = '\r' := fun hc => h6 (by rw [hc]; decide)
  have ht : ¬ c = '\t' := fun hc => h6 (by rw [hc]; decide)
  unfold jsonEscapeChar
  rw [if_neg h1, if_neg h2, if_neg hn, if_neg hr, if_neg ht, if_neg h3,
    if_neg h4, if_neg h5, if_neg h6, if_neg h7, if_neg h8]

theorem jsonEscapeList_plain {l : List Char} (h : ∀ c ∈ l, plainChar c = true) :
    jsonEscapeList l = String.mk l := by
  induction l with
  | nil => rfl
  | cons c cs ih =>
    rw [show jsonEscapeList (c :: cs) = jsonEscapeChar c ++ jsonEscapeList cs from rfl,
      jsonEscapeChar_plain (h c (by simp)), ih (fun d hd => h d (by simp [hd])),
      mk_append_mk]
    rfl

theorem jsonQuote_plain {s : String} (h : ∀ c ∈ s.data, plainChar c = true) :
    jsonQuote s = "\"" ++ s ++ "\"" := by
  unfold jsonQuote
  rw [jsonEscapeList_plain h, mk_data]

theorem textFormatEntry_eq_spec (e : LogEntry) :
    textFormatEntry e = specTextRender e := by
  refine str_ext ?_
  rcases e with ⟨ts, lvl, msg, cal, fs⟩
  by_cases hc : cal = "" <;> cases fs <;>
    simp [textFormatEntry, specTextRender, joinStrings, hc, data_append,
      show "".data = ([] : List Char) from rfl]

theorem textFormat_contains_message (e : LogEntry) :
    strContains (textFormatEntry e) e.Message = true := by
  rw [textFormatEntry_eq_spec]
  exact strContains_of_eq _
    (e.Timestamp ++ " " ++ "[" ++ e.Level ++ "]" ++
      (if e.Caller ≠ "" then " " ++ "(" ++ e.Caller ++ ")" else "") ++ " ")
    e.Message
    (if e.Fields.length > 0 then
      " " ++ "\x7b" ++
        joinStrings ", " (e.Fields.map (fun kv => kv.1 ++ "=" ++ kv.2.render)) ++ "\x7d"
     else "")
    (by simp [specTextRender, append_assoc'])

theorem textFormat_contains_level (e : LogEntry) :
    strContains (textFormatEntry e) e.Level = true := by
  rw [textFormatEntry_eq_spec]
  exact strContains_of_eq _
    (e.Timestamp ++ " " ++ "[")
    e.Level
    ("]" ++ (if e.Caller ≠ "" then " " ++ "(" ++ e.Caller ++ ")" else "") ++
      " " ++ e.Message ++
      (if e.Fields.length > 0 then
        " " ++ "\x7b" ++
          joinStrings ", " (e.Fields.map (fun kv => kv.1 ++ "=" ++ kv.2.render)) ++ "\x7d"
       else ""))
    (by simp [specTextRender, append_assoc'])

theorem jsonMarshal_contains (e : LogEntry) (s part : String)
    (hjm : jsonMarshal e = some s)
    (hq : ∃ p q, ("\x7b\"timestamp\":" ++ jsonQuote e.Timestamp ++ ",\"level\":" ++
        jsonQuote e.Level ++ ",\"message\":" ++ jsonQuote e.Message ++
        (if e.Caller ≠ "" then ",\"caller\":" ++ jsonQuote e.Caller else "")) =
        p ++ (part ++ q)) :
    strContains s part = true := by
  obtain ⟨p, q, hpq⟩ := hq
  unfold jsonMarshal at hjm
  rcases hfs : e.Fields with _ | ⟨a, t⟩ <;> rw [hfs] at hjm
  · injection hjm with hjm
    refine strContains_of_eq _ p part (q ++ "\x7d") ?_
    rw [← hjm, hpq]
    simp only [append_assoc']
  · rcases hjf : jsonFields (a :: t) with _ | fj <;> rw [hjf] at hjm
    · cases hjm
    · injection hjm with hjm
      refine strContains_of_eq _ p part (q ++ (",\"fields\":" ++ (fj ++ "\x7d"))) ?_
      rw [← hjm, hpq]
      simp only [append_assoc']

end Helpers

/-- C1: for every threshold and every emission level, a record is
written to the sink iff the level is at least the threshold; the
boundary level-equals-threshold emits, and a level strictly below the
threshold writes nothing. -/
theorem C1_threshold_gate (l : Logger) (level : LogLevel) (msg : String)
    (args : List Value) (now : String) (frame : Option (String × Nat)) :
    (l.log level msg args now frame = none ↔ level.toNat < l.level.toNat)
  ∧ ((l.log level msg args now frame).isSome = true ↔ l.level.toNat ≤ level.toNat)
  ∧ (level = l.level → (l.log level msg args now frame).isSome = true) := by
  unfold Logger.log
  by_cases h : level.toNat < l.level.toNat
  · rw [if_pos h]
    refine ⟨by simp [h], by simp; omega, ?_⟩
    intro he
    rw [he] at h
    omega
  · rw [if_neg h]
    exact ⟨by simp [h], by simp; omega, fun _ => by simp⟩

/-- C1 witness: a WARN emission at threshold WARN is written. -/
theorem C1_threshold_gate_witness :
    ((⟨.WARN, .JSONFormat, 0, [], 0⟩ : Logger).log .WARN "m" [] "t" none).isSome = true :=
  (C1_threshold_gate ⟨.WARN, .JSONFormat, 0, [], 0⟩ .WARN "m" [] "t" none).2.2 rfl

/-- C4: the severity and format parsers are total with the documented
defaults and examples, and depend only on the (ASCII) case-folded
input. -/
theorem C4_parse_total :
    parseLogLevel "bogus" = .INFO
  ∧ parseLogLevel "warning" = .WARN
  ∧ parseLogFormat "TEXT" = .TextFormat
  ∧ (∀ s, toUpperStr s = "WARNING" → parseLogLevel s = .WARN)
  ∧ (∀ s t, toUpperStr s = toUpperStr t → parseLogLevel s = parseLogLevel t)
  ∧ (∀ s t, toLowerStr s = toLowerStr t → parseLogFormat s = parseLogFormat t)
  ∧ (∀ s, toUpperStr s ∉
      (["DEBUG", "INFO", "WARN", "WARNING", "ERROR", "FATAL"] : List String) →
      parseLogLevel s = .INFO)
  ∧ (∀ s, toLowerStr s ∉ (["json", "text", "plain"] : List String) →
      parseLogFormat s = .JSONFormat) := by
  refine ⟨by decide, by decide, by decide, ?_, ?_, ?_, ?_, ?_⟩
  · intro s h; unfold parseLogLevel; rw [h]; decide
  · intro s t h; unfold parseLogLevel; rw [h]
  · intro s t h; unfold parseLogFormat; rw [h]
  · intro s h
    unfold parseLogLevel
    split <;> simp_all
  · intro s h
    unfold parseLogFormat
    split <;> simp_all

/-- C4 witness: an unmapped severity text parses to INFO and an
unmapped format text parses to the structured strategy. -/
theorem C4_parse_total_witness :
    parseLogLevel "bOgUs2" = .INFO ∧ parseLogFormat "yaml" = .JSONFormat :=
  ⟨C4_parse_total.2.2.2.2.2.2.1 "bOgUs2" (by decide),
   C4_parse_total.2.2.2.2.2.2.2 "yaml" (by decide)⟩

/-- C2: WithField, WithFields and WithContext derive a new Logger
that shares the threshold, strategy, sink identity and callerSkip and
extends a copy of the fields; the receiver is unchanged (emission from
it still uses exactly its own fields), so a record emitted from the
original logger never includes a freshly derived key while the derived
logger does include it. -/
theorem C2_derivation_purity (l : Logger) (k : String) (v : Value) (m : Fields)
    (ctx : String → Option Value) (hk : lookupField l.fields k = none) :
    l.WithField k v = { l with fields := insertField l.fields k v }
  ∧ l.WithFields m =
      { l with fields := m.foldl (fun acc kv => insertField acc kv.1 kv.2) l.fields }
  ∧ ((l.WithContext ctx).level = l.level ∧ (l.WithContext ctx).format = l.format ∧
     (l.WithContext ctx).output = l.output ∧
     (l.WithContext ctx).callerSkip = l.callerSkip)
  ∧ (∀ level msg now frame, (l.mkEntry level msg now frame).Fields = l.fields)
  ∧ (∀ level msg now frame,
      lookupField (l.mkEntry level msg now frame).Fields k = none)
  ∧ (∀ level msg now frame,
      lookupField ((l.WithField k v).mkEntry level msg now frame).Fields k = some v) := by
  refine ⟨?_, ?_, ?_, ?_, ?_, ?_⟩
  · simp [Logger.WithField, clone_eq]
  · simp [Logger.WithFields, clone_eq]
  · cases h₁ : ctx "request_id" <;> cases h₂ : ctx "user_id" <;>
      simp [Logger.WithContext, clone_eq, h₁, h₂]
  · intro level msg now frame
    exact mkEntry_Fields l level msg now frame
  · intro level msg now frame
    rw [mkEntry_Fields]
    exact hk
  · intro level msg now frame
    rw [mkEntry_Fields]
    simp [Logger.WithField, clone_eq, lookup_insertField_self]

/-- C2 witness: deriving a fresh key on an empty-fields logger puts
the key in the derived record. -/
theorem C2_derivation_purity_witness :
    lookupField (((⟨.INFO, .JSONFormat, 0, [], 0⟩ : Logger).WithField "k"
      (.vNat 7)).mkEntry .INFO "m" "t" none).Fields "k" = some (.vNat 7) :=
  (C2_derivation_purity ⟨.INFO, .JSONFormat, 0, [], 0⟩ "k" (.vNat 7) []
    (fun _ => none) rfl).2.2.2.2.2 .INFO "m" "t" none

/-- C7: field attachment is last-write-wins: WithField overwrites any
prior binding of its key, WithFields gives the last same-key entry
precedence, and the record emitted by the derived logger shows the
overwriting value. -/
theorem C7_field_precedence (l : Logger) (k : String) (v₁ v₂ : Value) (m : Fields)
    (level : LogLevel) (msg now : String) (frame : Option (String × Nat)) :
    lookupField (l.WithField k v₂).fields k = some v₂
  ∧ lookupField ((l.WithFields [(k, v₁)]).WithField k v₂).fields k = some v₂
  ∧ lookupField (l.WithFields (m ++ [(k, v₂)])).fields k = some v₂
  ∧ lookupField (((l.WithFields [(k, v₁)]).WithField k v₂).mkEntry level msg now
      frame).Fields k = some v₂ := by
  refine ⟨?_, ?_, ?_, ?_⟩
  · simp [Logger.WithField, clone_eq, lookup_insertField_self]
  · simp [Logger.WithField, Logger.WithFields, clone_eq, lookup_insertField_self]
  · simp [Logger.WithFields, clone_eq, List.foldl_append, lookup_insertField_self]
  · rw [mkEntry_Fields]
    simp [Logger.WithField, Logger.WithFields, clone_eq, lookup_insertField_self]

/-- C5: the record carries a caller only when the level is at least
ERROR or the threshold is DEBUG; under that condition a successful
stack walk yields a caller; and an INFO emission at threshold INFO
carries none. -/
theorem C5_caller_presence (l : Logger) (level : LogLevel) (message now : String)
    (frame : Option (String × Nat)) :
    ((l.mkEntry level message now frame).Caller ≠ "" →
      (LogLevel.ERROR.toNat ≤ level.toNat ∨ l.level = .DEBUG))
  ∧ ((LogLevel.ERROR.toNat ≤ level.toNat ∨ l.level = .DEBUG) →
      ∀ file line, frame = some (file, line) →
        (l.mkEntry level message now frame).Caller ≠ "")
  ∧ (l.level = .INFO → level = .INFO →
      (l.mkEntry level message now frame).Caller = "") := by
  unfold Logger.mkEntry
  refine ⟨?_, ?_, ?_⟩
  · intro h
    by_cases hc : (LogLevel.ERROR.toNat ≤ level.toNat ∨ l.level = .DEBUG) ∧
        l.getCaller frame ≠ ""
    · exact hc.1
    · rw [if_neg hc] at h
      simp at h
  · rintro hcond file line rfl
    have hg := getCaller_some_ne_empty l file line
    rw [if_pos ⟨hcond, hg⟩]
    simpa using hg
  · intro hl hlevel
    rw [if_neg]
    rintro ⟨h₁ | h₂, -⟩
    · rw [hlevel] at h₁
      revert h₁
      decide
    · rw [hl] at h₂
      cases h₂

/-- C5 witness: at threshold DEBUG with a successful stack walk, an
INFO record carries a caller. -/
theorem C5_caller_presence_witness :
    ((⟨.DEBUG, .JSONFormat, 0, [], 0⟩ : Logger).mkEntry .INFO "m" "t"
      (some ("a/b.go", 7))).Caller ≠ "" :=
  (C5_caller_presence ⟨.DEBUG, .JSONFormat, 0, [], 0⟩ .INFO "m" "t"
    (some ("a/b.go", 7))).2.1 (Or.inr rfl) "a/b.go" 7 rfl

/-- The wrapper keeps the status of the last WriteHeader call made
through it, starting from the given default. -/
theorem serveHTTP_statusCode (handler : List HAction) (st : Nat) :
    (serveHTTP ⟨st⟩ handler).statusCode =
      (handler.filterMap
        (fun a => match a with | .writeHeader c => some c | .write _ => none)).getLastD st := by
  induction handler generalizing st with
  | nil => rfl
  | cons a t ih =>
    cases a with
    | writeHeader c =>
      show (serveHTTP ⟨c⟩ t).statusCode = _
      rw [ih, show (HAction.writeHeader c :: t).filterMap
          (fun a => match a with | HAction.writeHeader c => some c | HAction.write _ => none) =
          c :: t.filterMap
          (fun a => match a with | HAction.writeHeader c => some c | HAction.write _ => none)
          from rfl,
        List.getLastD_cons]
    | write p =>
      show (serveHTTP ⟨st⟩ t).statusCode = _
      rw [ih]
      simp [List.filterMap_cons]

/-- C3 counterexample: a handler that writes status 404 and then 500
refutes first-write capture: the wrapper keeps 500, the last write,
and the emitted record carries status_code 500 rather than the first
write 404. -/
theorem C3_counterexample :
    firstWrittenStatus [.writeHeader 404, .writeHeader 500] = 404
  ∧ (serveHTTP ⟨200⟩ [.writeHeader 404, .writeHeader 500]).statusCode = 500
  ∧ (serveHTTP ⟨200⟩ [.writeHeader 404, .writeHeader 500]).statusCode ≠
      firstWrittenStatus [.writeHeader 404, .writeHeader 500]
  ∧ lookupField ((⟨.INFO, .JSONFormat, 0, [], 0⟩ : Logger).httpRequestLogger
      ⟨"GET", "/x", "1.2.3.4", "ua"⟩
      (serveHTTP ⟨200⟩ [.writeHeader 404, .writeHeader 500]).statusCode "1ms").fields
      "status_code" = some (.vNat 500) := by
  decide

/-- C3 (amended): the wrapper captures the LAST status-code write of
the handler (equal to the first when the handler writes at most one),
defaulting to 200 when it writes none; the record the middleware emits
is derived with a status_code field equal to that captured code; a
handler writing one 404 yields 404 and a handler writing no status
yields 200. -/
theorem C3_status_capture (l : Logger) (handler : List HAction) (r : Request)
    (duration now : String) (frame : Option (String × Nat)) :
    (serveHTTP ⟨200⟩ handler).statusCode = lastWrittenStatus handler
  ∧ lookupField (l.httpRequestLogger r (serveHTTP ⟨200⟩ handler).statusCode
      duration).fields "status_code" =
      some (.vNat (serveHTTP ⟨200⟩ handler).statusCode)
  ∧ l.HTTPLogMiddleware handler r duration now frame =
      (l.httpRequestLogger r (serveHTTP ⟨200⟩ handler).statusCode duration).Info
        "HTTP request" [] now frame
  ∧ (serveHTTP ⟨200⟩ [HAction.writeHeader 404]).statusCode = 404
  ∧ ((∀ a ∈ handler, ∀ c, a ≠ HAction.writeHeader c) →
      (serveHTTP ⟨200⟩ handler).statusCode = 200) := by
  refine ⟨serveHTTP_statusCode handler 200, ?_, rfl, by decide, ?_⟩
  · simp only [Logger.httpRequestLogger, Logger.WithFields, clone_eq,
      List.foldl_cons, List.foldl_nil]
    rw [lookup_insertField_ne _ "duration" "status_code" _ (by decide)]
    exact lookup_insertField_self _ _ _
  · intro hno
    rw [serveHTTP_statusCode]
    have hnil : handler.filterMap
        (fun a => match a with | .writeHeader c => some c | .write _ => none) = [] := by
      rw [List.filterMap_eq_nil_iff]
      intro a ha
      cases a with
      | writeHeader c => exact absurd rfl (hno _ ha c)
      | write p => rfl
    rw [hnil]
    rfl

/-- C3 witness: a handler that only writes a body leaves the captured
status at the 200 default. -/
theorem C3_status_capture_witness :
    (serveHTTP ⟨200⟩ [HAction.write "x"]).statusCode = 200 :=
  (C3_status_capture ⟨.INFO, .JSONFormat, 0, [], 0⟩ [HAction.write "x"]
    ⟨"GET", "/", "a", "u"⟩ "1ms" "t" none).2.2.2.2
    (by
      rintro a ha c h
      simp at ha
      subst ha
      cases h)

/-- C6: when structured serialization of a record fails, formatEntry
falls back to the text rendering of that record, and an emission that
passed the threshold check always writes something regardless of the
entry contents. -/
theorem C6_render_fallback (l : Logger) (entry : LogEntry) (level : LogLevel)
    (msg : String) (args : List Value) (now : String) (frame : Option (String × Nat))
    (hf : l.format = .JSONFormat) (hfail : jsonMarshal entry = none) :
    l.formatEntry entry = textFormatEntry entry
  ∧ (¬ level.toNat < l.level.toNat → (l.log level msg args now frame).isSome = true) := by
  constructor
  · unfold Logger.formatEntry
    rw [hf, hfail]
  · intro h
    unfold Logger.log
    simp [h]

/-- C6 witness: a record carrying a non-serializable field value is
rendered by the text strategy instead of being dropped. -/
theorem C6_render_fallback_witness :
    (⟨.INFO, .JSONFormat, 0, [("bad", .vOpaque)], 0⟩ : Logger).formatEntry
      ⟨"t", "INFO", "m", "", [("bad", .vOpaque)]⟩ =
    textFormatEntry ⟨"t", "INFO", "m", "", [("bad", .vOpaque)]⟩ :=
  (C6_render_fallback ⟨.INFO, .JSONFormat, 0, [("bad", .vOpaque)], 0⟩
    ⟨"t", "INFO", "m", "", [("bad", .vOpaque)]⟩ .INFO "m" [] "t" none rfl
    (by decide)).1

/-- C8 counterexample: the structured rendering of a record whose
message contains a double quote escapes the quote, so the rendered
line does not contain the message text as a substring, refuting the
containment conjunct of the claim as stated. -/
theorem C8_counterexample :
    strContains ((⟨.INFO, .JSONFormat, 0, [], 0⟩ : Logger).formatEntry
      ⟨"t", "INFO", "a\"b", "", []⟩) "a\"b" = false := by
  decide

/-- C8 (amended): the text rendering is exactly the space-separated
concatenation the spec describes and always contains the message text
and the level name; the rendering under either strategy contains the
message text and the level name provided they contain no character
that JSON string escaping rewrites (the five level names never do). -/
theorem C8_render_contents (l : Logger) (e : LogEntry) :
    textFormatEntry e = specTextRender e
  ∧ strContains (textFormatEntry e) e.Message = true
  ∧ strContains (textFormatEntry e) e.Level = true
  ∧ ((∀ c ∈ e.Message.data, plainChar c = true) →
      strContains (l.formatEntry e) e.Message = true)
  ∧ ((∀ c ∈ e.Level.data, plainChar c = true) →
      strContains (l.formatEntry e) e.Level = true) := by
  refine ⟨textFormatEntry_eq_spec e, textFormat_contains_message e,
    textFormat_contains_level e, ?_, ?_⟩
  · intro hm
    unfold Logger.formatEntry
    cases hfmt : l.format with
    | TextFormat => exact textFormat_contains_message e
    | JSONFormat =>
      cases hjm : jsonMarshal e with
      | none => exact textFormat_contains_message e
      | some s =>
        refine jsonMarshal_contains e s e.Message hjm ?_
        refine ⟨"\x7b\"timestamp\":" ++ jsonQuote e.Timestamp ++ ",\"level\":" ++
          jsonQuote e.Level ++ ",\"message\":" ++ "\"",
          "\"" ++ (if e.Caller ≠ "" then ",\"caller\":" ++ jsonQuote e.Caller else ""),
          ?_⟩
        rw [jsonQuote_plain hm]
        simp only [append_assoc']
  · intro hl
    unfold Logger.formatEntry
    cases hfmt : l.format with
    | TextFormat => exact textFormat_contains_level e
    | JSONFormat =>
      cases hjm : jsonMarshal e with
      | none => exact textFormat_contains_level e
      | some s =>
        refine jsonMarshal_contains e s e.Level hjm ?_
        refine ⟨"\x7b\"timestamp\":" ++ jsonQuote e.Timestamp ++ ",\"level\":" ++ "\"",
          "\"" ++ (",\"message\":" ++ (jsonQuote e.Message ++
            (if e.Caller ≠ "" then ",\"caller\":" ++ jsonQuote e.Caller else ""))),
          ?_⟩
        rw [jsonQuote_plain hl]
        simp only [append_assoc']

/-- C8 witness: a plain record rendered by the structured strategy
contains both its message and its level name. -/
theorem C8_render_contents_witness :
    strContains ((⟨.INFO, .JSONFormat, 0, [], 0⟩ : Logger).formatEntry
      ⟨"t", "INFO", "hello", "", []⟩) "hello" = true
  ∧ strContains ((⟨.INFO, .JSONFormat, 0, [], 0⟩ : Logger).formatEntry
      ⟨"t", "INFO", "hello", "", []⟩) "INFO" = true :=
  ⟨(C8_render_contents ⟨.INFO, .JSONFormat, 0, [], 0⟩
      ⟨"t", "INFO", "hello", "", []⟩).2.2.2.1 (by decide),
   (C8_render_contents ⟨.INFO, .JSONFormat, 0, [], 0⟩
      ⟨"t", "INFO", "hello", "", []⟩).2.2.2.2 (by decide)⟩

/-- C9: Fatal performs exactly the log-path emission at FATAL (so the
threshold check applies), that emission is never dropped, and the
process exit status is nonzero. -/
theorem C9_fatal_emission (l : Logger) (msg : String) (args : List Value)
    (now : String) (frame : Option (String × Nat)) :
    (l.Fatal msg args now frame).1 = l.log .FATAL msg args now frame
  ∧ (l.Fatal msg args now frame).1.isSome = true
  ∧ (l.Fatal msg args now frame).2 ≠ 0 := by
  refine ⟨rfl, ?_, by simp [Logger.Fatal]⟩
  unfold Logger.Fatal Logger.log
  have h : ¬ LogLevel.FATAL.toNat < l.level.toNat := by
    cases hl : l.level <;> simp [LogLevel.toNat]
  simp [h]

/-- C9 witness: a concrete Fatal call emits and its exit status is 1. -/
theorem C9_fatal_emission_witness :
    ((⟨.INFO, .TextFormat, 0, [], 0⟩ : Logger).Fatal "m" [] "t" none).1.isSome = true :=
  (C9_fatal_emission ⟨.INFO, .TextFormat, 0, [], 0⟩ "m" [] "t" none).2.1

/-- C10: the generic-sink adapter returns (len p, nil) for every input
and every backing logger, including when the threshold is above INFO
and the forwarded message is dropped. -/
theorem C10_writer_contract (w : loggerWriter) (p now : String)
    (frame : Option (String × Nat)) :
    (w.Write p now frame).2 = (p.utf8ByteSize, none)
  ∧ (LogLevel.INFO.toNat < w.logger.level.toNat → (w.Write p now frame).1 = none) := by
  refine ⟨rfl, ?_⟩
  intro h
  unfold loggerWriter.Write Logger.Info Logger.log
  simp [h]

/-- C10 witness: a WARN-threshold backing logger drops the forwarded
bytes yet the adapter still returns (2, nil) for a 2-byte input. -/
theorem C10_writer_contract_witness :
    ((⟨⟨.WARN, .JSONFormat, 0, [], 0⟩⟩ : loggerWriter).Write "hi" "t" none).2 = (2, none)
  ∧ ((⟨⟨.WARN, .JSONFormat, 0, [], 0⟩⟩ : loggerWriter).Write "hi" "t" none).1 = none :=
  ⟨(C10_writer_contract ⟨⟨.WARN, .JSONFormat, 0, [], 0⟩⟩ "hi" "t" none).1,
   (C10_writer_contract ⟨⟨.WARN, .JSONFormat, 0, [], 0⟩⟩ "hi" "t" none).2 (by decide)⟩

end Beto
